import Mathlib

/-!
Shallow embedding of the `cantypes` crate (CAN frame model and acceptance
filter algebra) and verification of its specification.

Machine integers (`u32`, `u8`) are embedded as `Nat`; Rust's bitwise
complement `!x` on `u32` is embedded as xor with `0xFFFFFFFF`.
-/

/-! ### constants.rs -/

/-- Constant defining the 11-bit mask for standard CAN-IDs (`constants.rs`). -/
def STANDARD_FRAME_ID_MASK : Nat := 0x7FF

/-- Constant defining the number of bits of a standard CAN-ID (`constants.rs`). -/
def STANDARD_FRAME_ID_LENGTH : Nat := 11

/-- Constant defining the 29-bit mask for extended CAN-IDs (`constants.rs`). -/
def EXTENDED_FRAME_ID_MASK : Nat := 0x1FFFFFFF

/-- Constant defining the number of bits of an extended CAN-ID (`constants.rs`). -/
def EXTENDED_FRAME_ID_LENGTH : Nat := 29

/-- Bitwise complement on a 32-bit value: Rust's `!x` for `x : u32`. -/
def u32not (x : Nat) : Nat := x ^^^ 0xFFFFFFFF

/-! ### filter.rs -/

/-- The struct for modelling a standard filter (`filter.rs`). -/
structure StandardCanIdFilter where
  can_id : Nat
  mask : Nat
deriving DecidableEq

/-- `StandardCanIdFilter::from_can_id`: constructs a standard filter from a CAN-ID. -/
def StandardCanIdFilter.from_can_id (can_id : Nat) : StandardCanIdFilter :=
  ⟨can_id &&& STANDARD_FRAME_ID_MASK, STANDARD_FRAME_ID_MASK⟩

/-- `StandardCanIdFilter::accept_all`: constructs a standard filter that accepts any CAN-ID. -/
def StandardCanIdFilter.accept_all : StandardCanIdFilter :=
  ⟨0, 0⟩

/-- `CanIdFilter::match_can_id` for `StandardCanIdFilter`. -/
def StandardCanIdFilter.match_can_id (f : StandardCanIdFilter) (can_id : Nat) : Bool :=
  (f.can_id &&& f.mask) == (can_id &&& f.mask)

/-- `CanIdFilter::weight` for `StandardCanIdFilter`: loop over bit indices
`0..STANDARD_FRAME_ID_LENGTH`, counting mask bits equal to 0, returning `1 << counter`. -/
def StandardCanIdFilter.weight (f : StandardCanIdFilter) : Nat :=
  1 <<< ((List.range STANDARD_FRAME_ID_LENGTH).foldl
    (fun counter i => if f.mask &&& (1 <<< i) = 0 then counter + 1 else counter) 0)

/-- `Add for &StandardCanIdFilter`: constructs a combined filter. -/
def StandardCanIdFilter.add (self rhs : StandardCanIdFilter) : StandardCanIdFilter :=
  let left_can_id_filtered := self.can_id &&& self.mask
  let right_can_id_filtered := rhs.can_id &&& rhs.mask
  let mask := (u32not left_can_id_filtered ||| right_can_id_filtered) &&&
    (u32not right_can_id_filtered ||| left_can_id_filtered)
  ⟨self.can_id, mask &&& STANDARD_FRAME_ID_MASK⟩

/-- The struct for modelling an extended filter (`filter.rs`). -/
structure ExtendedCanIdFilter where
  can_id : Nat
  mask : Nat
deriving DecidableEq

/-- `ExtendedCanIdFilter::from_can_id`: constructs an extended filter from a CAN-ID. -/
def ExtendedCanIdFilter.from_can_id (can_id : Nat) : ExtendedCanIdFilter :=
  ⟨can_id &&& EXTENDED_FRAME_ID_MASK, EXTENDED_FRAME_ID_MASK⟩

/-- `ExtendedCanIdFilter::accept_all`: constructs an extended filter that accepts any CAN-ID. -/
def ExtendedCanIdFilter.accept_all : ExtendedCanIdFilter :=
  ⟨0, 0⟩

/-- `CanIdFilter::match_can_id` for `ExtendedCanIdFilter`. -/
def ExtendedCanIdFilter.match_can_id (f : ExtendedCanIdFilter) (can_id : Nat) : Bool :=
  (f.can_id &&& f.mask) == (can_id &&& f.mask)

/-- `CanIdFilter::weight` for `ExtendedCanIdFilter`: loop over bit indices
`0..EXTENDED_FRAME_ID_LENGTH`, counting mask bits equal to 0, returning `1 << counter`. -/
def ExtendedCanIdFilter.weight (f : ExtendedCanIdFilter) : Nat :=
  1 <<< ((List.range EXTENDED_FRAME_ID_LENGTH).foldl
    (fun counter i => if f.mask &&& (1 <<< i) = 0 then counter + 1 else counter) 0)

/-- `Add for &ExtendedCanIdFilter`: constructs a combined filter. -/
def ExtendedCanIdFilter.add (self rhs : ExtendedCanIdFilter) : ExtendedCanIdFilter :=
  let left_can_id_filtered := self.can_id &&& self.mask
  let right_can_id_filtered := rhs.can_id &&& rhs.mask
  let mask := (u32not left_can_id_filtered ||| right_can_id_filtered) &&&
    (u32not right_can_id_filtered ||| left_can_id_filtered)
  ⟨self.can_id, mask &&& EXTENDED_FRAME_ID_MASK⟩

/-! ### frame.rs -/

/-- `IdType` from `frame.rs`: standard (11-bit) or extended (29-bit) CAN-ID. -/
inductive IdType where
  | Standard
  | Extended
deriving DecidableEq

/-- The width mask selected by the `match id_type` expressions in `frame.rs`. -/
def IdType.frameIdMask : IdType → Nat
  | .Standard => STANDARD_FRAME_ID_MASK
  | .Extended => EXTENDED_FRAME_ID_MASK

/-- `CanFrame` from `frame.rs`: the tagged union of data, remote and error frames.
The fixed `[u8; 8]` buffer is embedded as a `List Nat` (of length 8 for
constructed frames). -/
inductive CanFrame where
  | DataFrame (can_id : Nat) (id_type : IdType) (dlc : Nat) (data : List Nat)
  | RemoteFrame (can_id : Nat) (id_type : IdType) (dlc : Nat)
  | ErrorFrame (can_id : Nat) (id_type : IdType)
deriving DecidableEq

/-- The byte-copy loop of `new_data_frame`: writes the first
`min (data.length) 8` bytes of `data` over a zeroed 8-byte buffer
(the `zip` iteration stops at the shorter of the two). -/
def copyIntoBuf (data : List Nat) : List Nat :=
  data.take 8 ++ (List.replicate 8 0).drop data.length

/-- `CanFrame::new_data_frame` from `frame.rs`. -/
def CanFrame.new_data_frame (can_id : Nat) (id_type : IdType) (data : List Nat) : CanFrame :=
  let canid := can_id &&& id_type.frameIdMask
  let candata := copyIntoBuf data
  let dlc := if data.length > 8 then 8 else data.length
  CanFrame.DataFrame canid id_type dlc candata

/-- `CanFrame::new_remote_frame` from `frame.rs`. -/
def CanFrame.new_remote_frame (can_id : Nat) (id_type : IdType) (dlc : Nat) : CanFrame :=
  let canid := can_id &&& id_type.frameIdMask
  let dlc2 := if dlc > 8 then 8 else dlc
  CanFrame.RemoteFrame canid id_type dlc2

/-- Observation: the stored CAN-ID of a frame. -/
def CanFrame.frame_can_id : CanFrame → Nat
  | .DataFrame can_id _ _ _ => can_id
  | .RemoteFrame can_id _ _ => can_id
  | .ErrorFrame can_id _ => can_id

/-- Observation: the stored DLC of a frame, `none` when the variant has no DLC field. -/
def CanFrame.frame_dlc : CanFrame → Option Nat
  | .DataFrame _ _ dlc _ => some dlc
  | .RemoteFrame _ _ dlc => some dlc
  | .ErrorFrame _ _ => none

/-- Observation: the stored payload of a frame, `none` when the variant has no data field. -/
def CanFrame.frame_data : CanFrame → Option (List Nat)
  | .DataFrame _ _ _ data => some data
  | .RemoteFrame _ _ _ => none
  | .ErrorFrame _ _ => none

/-! ### Debug rendering (`impl Debug for CanFrame` in frame.rs)

Rust's `{:#03X}` / `{:#08X}` formatting: uppercase hex, `0x` prefix, and the
zero flag pads between the prefix and the digits until the TOTAL output
(prefix included) reaches the given width. `{:02X?}` on a byte slice renders
`[..]` with each byte as zero-padded 2-digit uppercase hex. -/

/-- One uppercase hexadecimal digit character for `n < 16`. -/
def hexDigitU (n : Nat) : Char :=
  if n < 10 then Char.ofNat (48 + n) else Char.ofNat (55 + n)

/-- Hex digits of `n`, most significant first, with explicit fuel (8 suffices
for any `u32`); empty for `n = 0`. -/
def toHexAux : Nat → Nat → List Char
  | 0, _ => []
  | fuel + 1, n => if n = 0 then [] else toHexAux fuel (n / 16) ++ [hexDigitU (n % 16)]

/-- Uppercase hexadecimal numeral of a `u32` value, no prefix, no padding. -/
def toHexU (n : Nat) : String :=
  if n = 0 then "0" else ⟨toHexAux 8 n⟩

/-- Rust `format!` with spec `{:#0wX}`: `0x` prefix, zero-padding counted
against the total width `w` including the two prefix characters. -/
def rustUpperHexAltZero (w n : Nat) : String :=
  let digits := toHexU n
  "0x" ++ ⟨List.replicate (w - (2 + digits.length)) '0'⟩ ++ digits

/-- Rust `format!` with spec `{:02X}` on a byte: 2-wide zero-padded uppercase hex. -/
def rustUpperHex2 (n : Nat) : String :=
  let digits := toHexU n
  (⟨List.replicate (2 - digits.length) '0'⟩ : String) ++ digits

/-- Rust `{:02X?}` applied to a byte slice. -/
def rustUpperHex2List (l : List Nat) : String :=
  "[" ++ String.intercalate ", " (l.map rustUpperHex2) ++ "]"

/-- Rendering of the `can_id` field: `{:#03X}` for standard, `{:#08X}` for extended. -/
def fmtCanIdField : IdType → Nat → String
  | .Standard, n => rustUpperHexAltZero 3 n
  | .Extended, n => rustUpperHexAltZero 8 n

/-- `Debug` rendering of `IdType` (derived in the source). -/
def IdType.fmtDebug : IdType → String
  | .Standard => "Standard"
  | .Extended => "Extended"

/-- `impl Debug for CanFrame` from `frame.rs`, non-alternate `debug_struct`
output; the data field renders only `data[..dlc]`. -/
def CanFrame.fmtDebug : CanFrame → String
  | .DataFrame can_id id_type dlc data =>
      "DataFrame \x7b can_id: " ++ fmtCanIdField id_type can_id ++
      ", id_type: " ++ id_type.fmtDebug ++
      ", dlc: " ++ toString dlc ++
      ", data: " ++ rustUpperHex2List (data.take dlc) ++ " \x7d"
  | .RemoteFrame can_id id_type dlc =>
      "Remote \x7b can_id: " ++ fmtCanIdField id_type can_id ++
      ", id_type: " ++ id_type.fmtDebug ++
      ", dlc: " ++ toString dlc ++ " \x7d"
  | .ErrorFrame can_id id_type =>
      "ErrorFrame \x7b can_id: " ++ fmtCanIdField id_type can_id ++
      ", id_type: " ++ id_type.fmtDebug ++ " \x7d"

/-- Width invariant claimed for standard filters: neither the stored id nor
the stored mask has a bit outside the 11-bit width mask. -/
def StandardCanIdFilter.inWidth (f : StandardCanIdFilter) : Prop :=
  f.can_id &&& u32not STANDARD_FRAME_ID_MASK = 0 ∧
  f.mask &&& u32not STANDARD_FRAME_ID_MASK = 0

/-- Width invariant claimed for extended filters: neither the stored id nor
the stored mask has a bit outside the 29-bit width mask. -/
def ExtendedCanIdFilter.inWidth (f : ExtendedCanIdFilter) : Prop :=
  f.can_id &&& u32not EXTENDED_FRAME_ID_MASK = 0 ∧
  f.mask &&& u32not EXTENDED_FRAME_ID_MASK = 0

/-! ### Helper lemmas -/

/-- Bit `i` of the standard width mask is set exactly for `i < 11`. -/
theorem maskStd_testBit (i : Nat) : STANDARD_FRAME_ID_MASK.testBit i = decide (i < 11) := by
  rw [show STANDARD_FRAME_ID_MASK = 2 ^ 11 - 1 from by decide]
  exact Nat.testBit_two_pow_sub_one 11 i

/-- Bit `i` of the extended width mask is set exactly for `i < 29`. -/
theorem maskExt_testBit (i : Nat) : EXTENDED_FRAME_ID_MASK.testBit i = decide (i < 29) := by
  rw [show EXTENDED_FRAME_ID_MASK = 2 ^ 29 - 1 from by decide]
  exact Nat.testBit_two_pow_sub_one 29 i

/-- Bit `i` of the 32-bit complement flips the bit for `i < 32`. -/
theorem u32not_testBit (x i : Nat) : (u32not x).testBit i = (x.testBit i ^^ decide (i < 32)) := by
  unfold u32not
  rw [Nat.testBit_xor, show (0xFFFFFFFF : Nat) = 2 ^ 32 - 1 from by decide,
    Nat.testBit_two_pow_sub_one]

/-- Bit `i` of the merge-mask formula over raw machine words: set exactly when
`am` and `bm` agree at an in-range position. -/
theorem merge_formula_testBit (am bm n i : Nat) (h : n ≤ 32) :
    (((u32not am ||| bm) &&& (u32not bm ||| am)) &&& (2 ^ n - 1)).testBit i
      = ((am.testBit i == bm.testBit i) && decide (i < n)) := by
  simp only [Nat.testBit_and, Nat.testBit_or, u32not_testBit, Nat.testBit_two_pow_sub_one]
  by_cases hi : i < n
  · have h32 : i < 32 := by omega
    simp only [hi, h32, decide_True, Bool.xor_true, Bool.and_true]
    cases ham : am.testBit i <;> cases hbm : bm.testBit i <;> rfl
  · simp [hi]

/-- Bit `i` of the mask produced by the standard merge. -/
theorem StandardCanIdFilter.add_mask_testBit_std (a b : StandardCanIdFilter) (i : Nat) :
    ((a.add b).mask).testBit i =
      (((a.can_id &&& a.mask).testBit i == (b.can_id &&& b.mask).testBit i) &&
        decide (i < 11)) := by
  simp only [StandardCanIdFilter.add]
  rw [show STANDARD_FRAME_ID_MASK = 2 ^ 11 - 1 from by decide]
  exact merge_formula_testBit _ _ 11 i (by omega)

/-- Bit `i` of the mask produced by the extended merge. -/
theorem ExtendedCanIdFilter.add_mask_testBit_ext (a b : ExtendedCanIdFilter) (i : Nat) :
    ((a.add b).mask).testBit i =
      (((a.can_id &&& a.mask).testBit i == (b.can_id &&& b.mask).testBit i) &&
        decide (i < 29)) := by
  simp only [ExtendedCanIdFilter.add]
  rw [show EXTENDED_FRAME_ID_MASK = 2 ^ 29 - 1 from by decide]
  exact merge_formula_testBit _ _ 29 i (by omega)

/-- Counting loop of `weight` as a `countP`. -/
theorem foldl_count_aux (p : Nat → Prop) [DecidablePred p] (l : List Nat) : ∀ c : Nat,
    l.foldl (fun counter i => if p i then counter + 1 else counter) c
      = c + l.countP (fun i => decide (p i)) := by
  induction l with
  | nil => intro c; simp
  | cons i l ih =>
    intro c
    by_cases h : p i
    · simp only [List.foldl_cons, List.countP_cons, h, if_pos, decide_eq_true_eq, ih]
      omega
    · simp only [List.foldl_cons, List.countP_cons, h, if_neg, decide_eq_true_eq, ih,
        not_false_eq_true]
      omega

/-- The loop test `mask & (1 << i) == 0` is exactly "bit `i` of `mask` is 0". -/
theorem land_one_shift_eq_zero (m i : Nat) : m &&& (1 <<< i) = 0 ↔ m.testBit i = false := by
  rw [Nat.shiftLeft_eq, one_mul, Nat.and_two_pow]
  cases h : m.testBit i <;> simp [h, Nat.pow_eq_zero]

/-- `weight` of a standard filter counts don't-care bits among positions `0..11`. -/
theorem StandardCanIdFilter.weight_eq_std (f : StandardCanIdFilter) :
    f.weight = 2 ^ ((List.range STANDARD_FRAME_ID_LENGTH).countP
      (fun i => decide (f.mask.testBit i = false))) := by
  unfold StandardCanIdFilter.weight
  rw [foldl_count_aux (fun i => f.mask &&& (1 <<< i) = 0) (List.range STANDARD_FRAME_ID_LENGTH) 0,
    Nat.zero_add, Nat.shiftLeft_eq, one_mul]
  congr 1
  apply List.countP_congr
  intro x _
  simp only [decide_eq_true_eq]
  exact land_one_shift_eq_zero f.mask x

/-- `weight` of an extended filter counts don't-care bits among positions `0..29`. -/
theorem ExtendedCanIdFilter.weight_eq_ext (f : ExtendedCanIdFilter) :
    f.weight = 2 ^ ((List.range EXTENDED_FRAME_ID_LENGTH).countP
      (fun i => decide (f.mask.testBit i = false))) := by
  unfold ExtendedCanIdFilter.weight
  rw [foldl_count_aux (fun i => f.mask &&& (1 <<< i) = 0) (List.range EXTENDED_FRAME_ID_LENGTH) 0,
    Nat.zero_add, Nat.shiftLeft_eq, one_mul]
  congr 1
  apply List.countP_congr
  intro x _
  simp only [decide_eq_true_eq]
  exact land_one_shift_eq_zero f.mask x

/-- Masking twice with the same mask is the same as masking once. -/
theorem land_mask_idem (x M : Nat) : (x &&& M) &&& M = x &&& M := by
  rw [Nat.and_assoc, Nat.and_self]

/-- A value already restricted to the low `n` bits has no bits in the 32-bit
complement of the width mask. -/
theorem land_mask_not_mask (x n : Nat) (h : n ≤ 32) :
    (x &&& (2 ^ n - 1)) &&& u32not (2 ^ n - 1) = 0 := by
  apply Nat.eq_of_testBit_eq
  intro i
  simp only [Nat.testBit_and, u32not_testBit, Nat.testBit_two_pow_sub_one, Nat.zero_testBit]
  by_cases hi : i < n
  · have h32 : i < 32 := by omega
    simp [hi, h32]
  · simp [hi]

/-- The standard merge of two exact filters accepts both of the ids the
filters were built from. -/
theorem StandardCanIdFilter.merge_from_matches_std (x y : Nat) :
    ((StandardCanIdFilter.from_can_id x).add
      (StandardCanIdFilter.from_can_id y)).match_can_id x = true ∧
    ((StandardCanIdFilter.from_can_id x).add
      (StandardCanIdFilter.from_can_id y)).match_can_id y = true := by
  have hm := StandardCanIdFilter.add_mask_testBit_std
    (StandardCanIdFilter.from_can_id x) (StandardCanIdFilter.from_can_id y)
  constructor <;>
  · unfold StandardCanIdFilter.match_can_id
    rw [beq_iff_eq]
    apply Nat.eq_of_testBit_eq
    intro i
    rw [Nat.testBit_and, Nat.testBit_and, hm i]
    simp only [StandardCanIdFilter.from_can_id, StandardCanIdFilter.add, Nat.testBit_and,
      maskStd_testBit]
    by_cases hi : i < 11
    · simp only [hi, decide_True, Bool.and_true]
      all_goals cases hx : x.testBit i <;> cases hy : y.testBit i <;> rfl
    · simp [hi]

/-- The extended merge of two exact filters accepts both of the ids the
filters were built from. -/
theorem ExtendedCanIdFilter.merge_from_matches_ext (x y : Nat) :
    ((ExtendedCanIdFilter.from_can_id x).add
      (ExtendedCanIdFilter.from_can_id y)).match_can_id x = true ∧
    ((ExtendedCanIdFilter.from_can_id x).add
      (ExtendedCanIdFilter.from_can_id y)).match_can_id y = true := by
  have hm := ExtendedCanIdFilter.add_mask_testBit_ext
    (ExtendedCanIdFilter.from_can_id x) (ExtendedCanIdFilter.from_can_id y)
  constructor <;>
  · unfold ExtendedCanIdFilter.match_can_id
    rw [beq_iff_eq]
    apply Nat.eq_of_testBit_eq
    intro i
    rw [Nat.testBit_and, Nat.testBit_and, hm i]
    simp only [ExtendedCanIdFilter.from_can_id, ExtendedCanIdFilter.add, Nat.testBit_and,
      maskExt_testBit]
    by_cases hi : i < 29
    · simp only [hi, decide_True, Bool.and_true]
      all_goals cases hx : x.testBit i <;> cases hy : y.testBit i <;> rfl
    · simp [hi]

/-- The mask of the standard merge is symmetric in its two operands. -/
theorem StandardCanIdFilter.add_mask_comm_std (a b : StandardCanIdFilter) :
    (a.add b).mask = (b.add a).mask := by
  simp only [StandardCanIdFilter.add]
  rw [Nat.and_comm (u32not (a.can_id &&& a.mask) ||| (b.can_id &&& b.mask))]

/-- The mask of the extended merge is symmetric in its two operands. -/
theorem ExtendedCanIdFilter.add_mask_comm_ext (a b : ExtendedCanIdFilter) :
    (a.add b).mask = (b.add a).mask := by
  simp only [ExtendedCanIdFilter.add]
  rw [Nat.and_comm (u32not (a.can_id &&& a.mask) ||| (b.can_id &&& b.mask))]

/-- The standard exact filter compares candidate and built id inside the width mask. -/
theorem StandardCanIdFilter.from_match_eq_std (x y : Nat) :
    (StandardCanIdFilter.from_can_id x).match_can_id y
      = ((x &&& STANDARD_FRAME_ID_MASK) == (y &&& STANDARD_FRAME_ID_MASK)) := by
  simp only [StandardCanIdFilter.match_can_id, StandardCanIdFilter.from_can_id]
  rw [land_mask_idem]

/-- The extended exact filter compares candidate and built id inside the width mask. -/
theorem ExtendedCanIdFilter.from_match_eq_ext (x y : Nat) :
    (ExtendedCanIdFilter.from_can_id x).match_can_id y
      = ((x &&& EXTENDED_FRAME_ID_MASK) == (y &&& EXTENDED_FRAME_ID_MASK)) := by
  simp only [ExtendedCanIdFilter.match_can_id, ExtendedCanIdFilter.from_can_id]
  rw [land_mask_idem]

/-! ### Claim theorems -/

/-- C1 counterexample: at bit position 0 (inside the standard width range) both
wildcard filters have a mask bit of 0 (don't-care), yet the filter returned by
merging them has mask bit 1 there — don't-care status does not propagate and
re-tightens into a must-match bit. -/
theorem claim_C1_counterexample :
    StandardCanIdFilter.accept_all.mask.testBit 0 = false ∧
    ((StandardCanIdFilter.accept_all.add StandardCanIdFilter.accept_all).mask).testBit 0
      = true := by
  decide

/-- C1 (amended): for two same-width filters, bit `i` of the merged mask is 0
exactly where `am = a.can_id & a.mask` and `bm = b.can_id & b.mask` disagree at
an in-range position; a don't-care bit of one input therefore survives the
merge only when the other side's masked id bit is 1 there — when `am` and `bm`
both have 0 at a position (for example, when both inputs are don't-care
there), the merged mask re-tightens that bit to 1. -/
theorem claim_C1_amended_merge_mask_bits :
    (∀ (a b : StandardCanIdFilter) (i : Nat),
      ((a.add b).mask).testBit i =
        (((a.can_id &&& a.mask).testBit i == (b.can_id &&& b.mask).testBit i) &&
          decide (i < 11))) ∧
    (∀ (a b : ExtendedCanIdFilter) (i : Nat),
      ((a.add b).mask).testBit i =
        (((a.can_id &&& a.mask).testBit i == (b.can_id &&& b.mask).testBit i) &&
          decide (i < 29))) :=
  ⟨StandardCanIdFilter.add_mask_testBit_std, ExtendedCanIdFilter.add_mask_testBit_ext⟩

/-- C2: for every width and every pair of identifiers `x`, `y`, merging the two
exact filters built from `x` and `y` yields a filter that matches both `x` and
`y`. -/
theorem claim_C2_merge_covers_operands : ∀ x y : Nat,
    (((StandardCanIdFilter.from_can_id x).add
        (StandardCanIdFilter.from_can_id y)).match_can_id x = true ∧
      ((StandardCanIdFilter.from_can_id x).add
        (StandardCanIdFilter.from_can_id y)).match_can_id y = true) ∧
    (((ExtendedCanIdFilter.from_can_id x).add
        (ExtendedCanIdFilter.from_can_id y)).match_can_id x = true ∧
      ((ExtendedCanIdFilter.from_can_id x).add
        (ExtendedCanIdFilter.from_can_id y)).match_can_id y = true) :=
  fun x y =>
    ⟨StandardCanIdFilter.merge_from_matches_std x y, ExtendedCanIdFilter.merge_from_matches_ext x y⟩

/-- C3: for both widths the merged filter has mask
`((!am | bm) & (!bm | am)) & width_mask` with `am = a.can_id & a.mask`,
`bm = b.can_id & b.mask`, and keeps `a.can_id` unmodified; the merged mask has
a 1 exactly where `am` and `bm` agree within the width and is symmetric in `a`
and `b`, while the retained id is not (merging exact filters for 1 and 2 keeps
1, in the other order 2); the Standard merge of exact filters for `0x7FF` and
`0x00F` has mask `0x00F`, and the Extended merge of exact filters for
`0x1FFFCCFF` and `0x1FFF33FF` has mask `0x1FFF00FF`. -/
theorem claim_C3_merge_formula :
    (∀ a b : StandardCanIdFilter,
      (a.add b).mask =
        ((u32not (a.can_id &&& a.mask) ||| (b.can_id &&& b.mask)) &&&
          (u32not (b.can_id &&& b.mask) ||| (a.can_id &&& a.mask))) &&&
          STANDARD_FRAME_ID_MASK ∧
      (a.add b).can_id = a.can_id) ∧
    (∀ a b : ExtendedCanIdFilter,
      (a.add b).mask =
        ((u32not (a.can_id &&& a.mask) ||| (b.can_id &&& b.mask)) &&&
          (u32not (b.can_id &&& b.mask) ||| (a.can_id &&& a.mask))) &&&
          EXTENDED_FRAME_ID_MASK ∧
      (a.add b).can_id = a.can_id) ∧
    (∀ (a b : StandardCanIdFilter) (i : Nat),
      ((a.add b).mask).testBit i =
        (((a.can_id &&& a.mask).testBit i == (b.can_id &&& b.mask).testBit i) &&
          decide (i < 11))) ∧
    (∀ (a b : ExtendedCanIdFilter) (i : Nat),
      ((a.add b).mask).testBit i =
        (((a.can_id &&& a.mask).testBit i == (b.can_id &&& b.mask).testBit i) &&
          decide (i < 29))) ∧
    (∀ a b : StandardCanIdFilter, (a.add b).mask = (b.add a).mask) ∧
    (∀ a b : ExtendedCanIdFilter, (a.add b).mask = (b.add a).mask) ∧
    ((StandardCanIdFilter.from_can_id 1).add (StandardCanIdFilter.from_can_id 2)).can_id
      = 1 ∧
    ((StandardCanIdFilter.from_can_id 2).add (StandardCanIdFilter.from_can_id 1)).can_id
      = 2 ∧
    ((StandardCanIdFilter.from_can_id 0x7FF).add
      (StandardCanIdFilter.from_can_id 0x00F)).mask = 0x00F ∧
    ((ExtendedCanIdFilter.from_can_id 0x1FFFCCFF).add
      (ExtendedCanIdFilter.from_can_id 0x1FFF33FF)).mask = 0x1FFF00FF :=
  ⟨fun _ _ => ⟨rfl, rfl⟩, fun _ _ => ⟨rfl, rfl⟩,
    StandardCanIdFilter.add_mask_testBit_std, ExtendedCanIdFilter.add_mask_testBit_ext,
    StandardCanIdFilter.add_mask_comm_std, ExtendedCanIdFilter.add_mask_comm_ext,
    by decide, by decide, by decide, by decide⟩

/-- C4: for every width, matching candidate `y` against the exact filter built
from `x` returns true exactly when `x` and `y` agree on every bit of the
width's full mask; in particular every `x` (including values with bits above
the width) is matched by its own exact filter. -/
theorem claim_C4_exact_filter_matching : ∀ x y : Nat,
    (StandardCanIdFilter.from_can_id x).match_can_id y
      = ((x &&& STANDARD_FRAME_ID_MASK) == (y &&& STANDARD_FRAME_ID_MASK)) ∧
    (StandardCanIdFilter.from_can_id x).match_can_id x = true ∧
    (ExtendedCanIdFilter.from_can_id x).match_can_id y
      = ((x &&& EXTENDED_FRAME_ID_MASK) == (y &&& EXTENDED_FRAME_ID_MASK)) ∧
    (ExtendedCanIdFilter.from_can_id x).match_can_id x = true := by
  intro x y
  refine ⟨StandardCanIdFilter.from_match_eq_std x y, ?_,
    ExtendedCanIdFilter.from_match_eq_ext x y, ?_⟩
  · rw [StandardCanIdFilter.from_match_eq_std]
    exact beq_self_eq_true (x &&& STANDARD_FRAME_ID_MASK)
  · rw [ExtendedCanIdFilter.from_match_eq_ext]
    exact beq_self_eq_true (x &&& EXTENDED_FRAME_ID_MASK)

/-- C5: for every width, the accept-all filter (id 0, mask 0) matches every
candidate `y`, including candidates with bits outside the width's range. -/
theorem claim_C5_accept_all_matches_everything : ∀ y : Nat,
    StandardCanIdFilter.accept_all.match_can_id y = true ∧
    ExtendedCanIdFilter.accept_all.match_can_id y = true := by
  intro y
  constructor <;>
    simp [StandardCanIdFilter.match_can_id, ExtendedCanIdFilter.match_can_id,
      StandardCanIdFilter.accept_all, ExtendedCanIdFilter.accept_all, Nat.and_zero]

/-- C6: for every filter, `weight` equals `2 ^ c` where `c` counts the mask
bits equal to 0 among exactly the width's bit positions (0..11 standard,
0..29 extended; bits outside that range ignored); in particular the standard
wildcard has weight `0x800` and the extended wildcard `0x20000000`. -/
theorem claim_C6_weight :
    (∀ f : StandardCanIdFilter, f.weight
        = 2 ^ ((List.range STANDARD_FRAME_ID_LENGTH).countP
            (fun i => decide (f.mask.testBit i = false)))) ∧
    (∀ f : ExtendedCanIdFilter, f.weight
        = 2 ^ ((List.range EXTENDED_FRAME_ID_LENGTH).countP
            (fun i => decide (f.mask.testBit i = false)))) ∧
    StandardCanIdFilter.accept_all.weight = 0x800 ∧
    ExtendedCanIdFilter.accept_all.weight = 0x20000000 :=
  ⟨StandardCanIdFilter.weight_eq_std, ExtendedCanIdFilter.weight_eq_ext, by decide, by decide⟩

/-- C7 (code evaluated at the failing inputs): the Debug rendering pads the
can_id field to a TOTAL width of 3 (standard) or 8 (extended) characters
including the `0x` prefix, so a standard id renders with as few as 1 hex digit
and an extended id with only 6 zero-padded hex digits — not the zero-padded 3
and 8 hex digits the rendering contract states. The payload part of the
contract does hold: only the first `dlc` bytes are listed, 2 hex digits each. -/
theorem claim_C7_rendering_at_failing_inputs :
    CanFrame.fmtDebug (CanFrame.ErrorFrame 1 IdType.Extended)
      = "ErrorFrame { can_id: 0x000001, id_type: Extended }" ∧
    CanFrame.fmtDebug (CanFrame.ErrorFrame 1 IdType.Standard)
      = "ErrorFrame { can_id: 0x1, id_type: Standard }" ∧
    CanFrame.fmtDebug (CanFrame.new_data_frame 1 IdType.Standard [0xAA, 0xBB, 0xCC])
      = "DataFrame { can_id: 0x1, id_type: Standard, dlc: 3, data: [AA, BB, CC] }" ∧
    CanFrame.fmtDebug (CanFrame.new_data_frame 1 IdType.Standard
        [1, 2, 3, 4, 5, 6, 7, 8, 9, 10, 11, 12])
      = "DataFrame { can_id: 0x1, id_type: Standard, dlc: 8, data: [01, 02, 03, 04, 05, 06, 07, 08] }" := by
  refine ⟨rfl, rfl, rfl, rfl⟩

/-- C8: `new_data_frame` masks the id to the width, clamps `dlc` to
`min payload.length 8`, stores the first `min payload.length 8` payload bytes
and zero-fills the rest of the 8-byte buffer; `new_remote_frame` masks the id
and clamps `dlc` to at most 8, so a declared `dlc` of 200 is stored as 8. -/
theorem claim_C8_frame_constructors :
    (∀ (can_id : Nat) (ty : IdType) (payload : List Nat),
      CanFrame.new_data_frame can_id ty payload
        = CanFrame.DataFrame (can_id &&& ty.frameIdMask) ty (min payload.length 8)
            (payload.take 8 ++ List.replicate (8 - min payload.length 8) 0)) ∧
    (∀ (can_id : Nat) (ty : IdType) (dlc : Nat),
      CanFrame.new_remote_frame can_id ty dlc
        = CanFrame.RemoteFrame (can_id &&& ty.frameIdMask) ty (min dlc 8)) ∧
    CanFrame.new_remote_frame 0x123 IdType.Standard 200
      = CanFrame.RemoteFrame 0x123 IdType.Standard 8 := by
  refine ⟨?_, ?_, by decide⟩
  · intro can_id ty payload
    have h1 : (if payload.length > 8 then 8 else payload.length) = min payload.length 8 := by
      split <;> omega
    have h2 : (8 : Nat) - payload.length = 8 - min payload.length 8 := by omega
    simp only [CanFrame.new_data_frame, copyIntoBuf, List.drop_replicate, h1, h2]
  · intro can_id ty dlc
    have h1 : (if dlc > 8 then 8 else dlc) = min dlc 8 := by
      split <;> omega
    simp only [CanFrame.new_remote_frame, h1]

/-- C9 counterexample: the only error-frame construction the public interface
offers is the bare `ErrorFrame` variant, and it stores the identifier as
given: constructing it from `0x800` with the Standard width stores `0x800`,
while masking to the standard width mask would store 0. -/
theorem claim_C9_counterexample :
    (CanFrame.ErrorFrame 0x800 IdType.Standard).frame_can_id = 0x800 ∧
    0x800 &&& IdType.Standard.frameIdMask = 0 := by
  decide

/-- C9 (amended): the public interface exposes error frames only through the
`ErrorFrame` variant itself, which takes an identifier and a width and
produces a frame carrying neither a length nor a payload field; unlike the
data- and remote-frame constructors it applies no masking — the identifier is
stored exactly as given. -/
theorem claim_C9_amended_error_frame :
    ∀ (can_id : Nat) (ty : IdType),
      (CanFrame.ErrorFrame can_id ty).frame_can_id = can_id ∧
      (CanFrame.ErrorFrame can_id ty).frame_dlc = none ∧
      (CanFrame.ErrorFrame can_id ty).frame_data = none :=
  fun _ _ => ⟨rfl, rfl, rfl⟩

/-- C10: every filter produced by `from_can_id` or `accept_all` satisfies
`can_id & !width_mask == 0` and `mask & !width_mask == 0`, and the Add merge
preserves this invariant, for both the Standard and Extended variants: the
stored id and the stored mask never contain bits outside the width's full
mask. -/
theorem claim_C10_width_invariant :
    (∀ x : Nat, (StandardCanIdFilter.from_can_id x).inWidth) ∧
    (∀ x : Nat, (ExtendedCanIdFilter.from_can_id x).inWidth) ∧
    StandardCanIdFilter.accept_all.inWidth ∧
    ExtendedCanIdFilter.accept_all.inWidth ∧
    (∀ a b : StandardCanIdFilter, a.inWidth → b.inWidth → (a.add b).inWidth) ∧
    (∀ a b : ExtendedCanIdFilter, a.inWidth → b.inWidth → (a.add b).inWidth) := by
  have hstd : STANDARD_FRAME_ID_MASK = 2 ^ 11 - 1 := by decide
  have hext : EXTENDED_FRAME_ID_MASK = 2 ^ 29 - 1 := by decide
  refine ⟨?_, ?_, ⟨rfl, rfl⟩, ⟨rfl, rfl⟩, ?_, ?_⟩
  · intro x
    constructor
    · show (x &&& STANDARD_FRAME_ID_MASK) &&& u32not STANDARD_FRAME_ID_MASK = 0
      rw [hstd]
      exact land_mask_not_mask x 11 (by omega)
    · show STANDARD_FRAME_ID_MASK &&& u32not STANDARD_FRAME_ID_MASK = 0
      decide
  · intro x
    constructor
    · show (x &&& EXTENDED_FRAME_ID_MASK) &&& u32not EXTENDED_FRAME_ID_MASK = 0
      rw [hext]
      exact land_mask_not_mask x 29 (by omega)
    · show EXTENDED_FRAME_ID_MASK &&& u32not EXTENDED_FRAME_ID_MASK = 0
      decide
  · intro a b ha _
    constructor
    · exact ha.1
    · show (_ &&& STANDARD_FRAME_ID_MASK) &&& u32not STANDARD_FRAME_ID_MASK = 0
      rw [hstd]
      exact land_mask_not_mask _ 11 (by omega)
  · intro a b ha _
    constructor
    · exact ha.1
    · show (_ &&& EXTENDED_FRAME_ID_MASK) &&& u32not EXTENDED_FRAME_ID_MASK = 0
      rw [hext]
      exact land_mask_not_mask _ 29 (by omega)

/-- Witness for C10: the invariant conjuncts instantiated at concrete filters,
with the merge-preservation part applied to the exact filter for 5 and the
wildcard filter. -/
theorem claim_C10_witness :
    ((StandardCanIdFilter.from_can_id 5).add StandardCanIdFilter.accept_all).inWidth :=
  claim_C10_width_invariant.2.2.2.2.1 (StandardCanIdFilter.from_can_id 5)
    StandardCanIdFilter.accept_all ⟨rfl, rfl⟩ ⟨rfl, rfl⟩
